import Mathlib

set_option maxRecDepth 8000

/-!
Shallow embedding of the asynchronous query-job pipeline and hybrid
retrieval/ranking engine of the netlify-rag-chatbot repository.

The definitions below are translated from the TypeScript source:
  * src/src/lib/db/jobs-schema.ts and the jobs module (createQueryJob,
    getQueryJob, updateJobProgress, storeJobResults, markJobFailed,
    cleanupExpiredJobs),
  * src/netlify/functions/query.ts (validateAndSanitizeInput,
    applyTokenLimit, findSimilarEmbeddings scoring, context assembly,
    response construction),
  * the background worker (updateJobProgress / storeJobResults pipeline,
    verifyResponse, per-paper grouping) and the query-status endpoint.

Modelling conventions:
  * timestamps are integer milliseconds (JS Date.getTime values);
  * JS numbers are modelled as rationals (the claims settled here concern
    the algebraic structure of the computations, not float rounding);
  * strings are ASCII in all concrete inputs, so Lean's codepoint-based
    String.length agrees with the JS UTF-16 .length;
  * a drizzle .set call skips fields whose value is undefined, leaving
    the column unchanged; this is modelled explicitly below.
-/

/-- Truthiness-based defaulting for JS strings: `s || d` yields `d` when `s`
is undefined or the empty string (both falsy), and `s` otherwise. -/
def jsOrString (o : Option String) (d : String) : String :=
  match o with
  | none => d
  | some s => if s = "" then d else s

/-- JS number payload of an untyped field: `undef` models an absent field,
`nonNum` a present field whose parseInt/parseFloat is NaN, `num q` a numeric
value (whose string form is non-exponential). -/
inductive JsVal where
  | undef : JsVal
  | nonNum : JsVal
  | num : ℚ → JsVal
deriving DecidableEq, Repr

/-- Truncation toward zero, the rounding JS parseInt applies to a numeric
value once stringified (e.g. parseInt(3.7) = 3, parseInt(-3.7) = -3). -/
def jsTrunc (q : ℚ) : Int :=
  Int.tdiv q.num (q.den : Int)

/-- parseInt of a JS field value: NaN (modelled none) on an absent or
non-numeric field, truncation toward zero otherwise. -/
def jsParseInt (v : JsVal) : Option Int :=
  match v with
  | .num q => some (jsTrunc q)
  | _ => none

/-- parseFloat of a JS field value. -/
def jsParseFloat (v : JsVal) : Option ℚ :=
  match v with
  | .num q => some q
  | _ => none

/-- The JS idiom `x || d` on a parsed integer: NaN and 0 are falsy and fall
back to the default `d`. -/
def jsOrInt (o : Option Int) (d : Int) : Int :=
  match o with
  | none => d
  | some n => if n = 0 then d else n

/-- The JS idiom `x || d` on a parsed float: NaN and 0 are falsy and fall
back to the default `d`. -/
def jsOrQ (o : Option ℚ) (d : ℚ) : ℚ :=
  match o with
  | none => d
  | some q => if q = 0 then d else q

/-- Math.min(Math.max(x, lo), hi) on integers, as used by the sanitizer. -/
def clampInt (lo hi x : Int) : Int :=
  min (max x lo) hi

/-- Math.min(Math.max(x, lo), hi) on floats, as used by the sanitizer. -/
def clampQ (lo hi x : ℚ) : ℚ :=
  min (max x lo) hi

/-- Substring containment test (for a nonempty pattern): true iff `pat`
occurs somewhere in `s`, the semantics of JS String.includes. -/
def strContains (s pat : String) : Bool :=
  (s.splitOn pat).length ≥ 2

/-- Membership in the control-character class [\x00-\x08\x0B\x0C\x0E-\x1F]
of the abuse-prevention patterns (tab, LF and CR are excluded). -/
def isBannedControlChar (c : Char) : Bool :=
  c.toNat ≤ 8 || c.toNat == 11 || c.toNat == 12 || (14 ≤ c.toNat && c.toNat ≤ 31)

/-- Test for /select.*from/i on one line: "select" followed (on the same
line, since the regex dot does not cross line terminators) by "from".
The argument is already lower-cased. -/
def lineHasSelectThenFrom (line : String) : Bool :=
  match line.splitOn "select" with
  | [] => false
  | [_] => false
  | _ :: rest => strContains (String.intercalate "select" rest) "from"

/-- Test whether the text matches any of the SUSPICIOUS_PATTERNS of
ABUSE_PREVENTION: /select.*from/i, /<script/i, /javascript:/i, /eval\(/i,
or a banned control character. -/
def suspiciousPatternHit (text : String) : Bool :=
  let t := text.toLower
  ((t.splitOn "\n").map (·.splitOn "\r")).flatten.any lineHasSelectThenFrom
    || strContains t "<script"
    || strContains t "javascript:"
    || strContains t "eval("
    || text.data.any isBannedControlChar

/-- The BLOCKED_TERMS list of ABUSE_PREVENTION. -/
def blockedTerms : List String :=
  ["password", "secret", "token", "key", "admin",
   "drop table", "delete from", "update set", "insert into"]

/-- Test whether the lower-cased text contains a blocked term. -/
def blockedTermHit (text : String) : Bool :=
  blockedTerms.any (fun term => strContains text.toLower term)

/-- detectSuspiciousContent from query.ts: one generic issue per category,
without echoing the matched pattern or term. -/
def detectSuspiciousContent (text : String) : List String :=
  (if suspiciousPatternHit text then ["Suspicious pattern detected"] else [])
    ++ (if blockedTermHit text then ["Blocked content detected"] else [])

/-- Raw request payload, as far as validateAndSanitizeInput inspects it.
String fields are Option (none models an absent or non-string field);
numeric knobs are JsVal; enableVerification models Boolean(x) applied to
the raw field. -/
structure RawInput where
  query : Option String
  ragId : Option String
  model : Option String
  complexity : Option String
  retrievalStrategy : Option String
  enableVerification : Bool
  maxChunksPerPaper : JsVal
  targetTokens : JsVal
  similarityThreshold : JsVal
  vectorWeight : JsVal
  textWeight : JsVal
  outputStyle : Option String
deriving Repr

/-- The sanitized record produced by validateAndSanitizeInput, also the
immutable params stored on a query job at creation. -/
structure SanitizedInput where
  ragId : Option String
  query : Option String
  model : Option String
  complexity : Option String
  retrievalStrategy : Option String
  enableVerification : Bool
  maxChunksPerPaper : Int
  targetTokens : Int
  similarityThreshold : ℚ
  vectorWeight : ℚ
  textWeight : ℚ
  outputStyle : Option String
deriving DecidableEq, Repr

/-- The validation errors collected by validateAndSanitizeInput: query
presence/length/suspicious-content checks, ragId presence, and the
targetTokens range check (performed only when the field is present). -/
def validationErrors (input : RawInput) : List String :=
  (match input.query with
   | none => ["Query is required and must be a string"]
   | some q =>
     if q = "" then ["Query is required and must be a string"]
     else if q.length > 1000 then ["Query too long (max 1000 characters)"]
     else if q.trim.length < 3 then ["Query too short (minimum 3 characters)"]
     else detectSuspiciousContent q)
  ++ (match input.ragId with
      | none => ["RAG ID is required"]
      | some r => if r = "" then ["RAG ID is required"] else [])
  ++ (if input.targetTokens = .undef then []
      else match jsParseInt input.targetTokens with
        | none => ["Target tokens must be between 100 and 10000"]
        | some t =>
          if t < 100 ∨ t > 10000 then
            ["Target tokens must be between 100 and 10000"]
          else [])

/-- The sanitized record built by validateAndSanitizeInput: trims the string
fields, coerces enableVerification with Boolean, and computes each numeric
knob as Math.min(Math.max(parse(x) || default, lo), hi). -/
def sanitizeInput (input : RawInput) : SanitizedInput where
  ragId := input.ragId.map (·.trim)
  query := input.query.map (fun q => (q.trim).take 1000)
  model := input.model.map (·.trim)
  complexity := input.complexity.map (·.trim)
  retrievalStrategy := input.retrievalStrategy.map (·.trim)
  enableVerification := input.enableVerification
  maxChunksPerPaper := clampInt 1 10 (jsOrInt (jsParseInt input.maxChunksPerPaper) 3)
  targetTokens := clampInt 100 10000 (jsOrInt (jsParseInt input.targetTokens) 1500)
  similarityThreshold := clampQ (1/10) 1 (jsOrQ (jsParseFloat input.similarityThreshold) (3/10))
  vectorWeight := clampQ 0 1 (jsOrQ (jsParseFloat input.vectorWeight) (7/10))
  textWeight := clampQ 0 1 (jsOrQ (jsParseFloat input.textWeight) (3/10))
  outputStyle := input.outputStyle.map (·.trim)

/-- Result record of validateAndSanitizeInput. -/
structure ValidationResult where
  isValid : Bool
  errors : List String
  sanitized : SanitizedInput
deriving Repr

/-- validateAndSanitizeInput from query.ts (identical in the async submit
function): isValid iff no error was collected; the sanitized record is
built unconditionally. -/
def validateAndSanitizeInput (input : RawInput) : ValidationResult where
  isValid := (validationErrors input).isEmpty
  errors := validationErrors input
  sanitized := sanitizeInput input

/-- Job status enum (pgEnum job_status in jobs-schema.ts). -/
inductive JobStatus where
  | pending
  | processing
  | completed
  | failed
deriving DecidableEq, Repr

/-- A sources-array entry as stored on a completed job: 1-based index,
chunk content, fused similarity, raw metadata. -/
structure SourceEntry where
  index : Nat
  content : String
  similarity : ℚ
  metadata : String
deriving DecidableEq, Repr

/-- An allMatchingChunks entry as stored on a completed job. In the
empty-retrieval completion path the source omits citedInResponse; that is
modelled as the value false. -/
structure DisplayChunk where
  index : Nat
  content : String
  id : Int
  similarity : ℚ
  metadata : String
  usedInContext : Bool
  citedInResponse : Bool
deriving DecidableEq, Repr

/-- A query_jobs row (jobs-schema.ts). The confidence column is text;
timestamps are integer milliseconds. -/
structure QueryJob where
  status : JobStatus
  progress : Option String
  params : SanitizedInput
  response : Option String
  sources : Option (List SourceEntry)
  allMatchingChunks : Option (List DisplayChunk)
  confidence : Option String
  error : Option String
  createdAt : Int
  startedAt : Option Int
  completedAt : Option Int
  expiresAt : Int
deriving DecidableEq, Repr

/-- createQueryJob: a fresh row with status pending, the request params,
and expiresAt = now + 3600000 ms (1 hour). -/
def createQueryJob (now : Int) (params : SanitizedInput) : QueryJob where
  status := .pending
  progress := none
  params := params
  response := none
  sources := none
  allMatchingChunks := none
  confidence := none
  error := none
  createdAt := now
  startedAt := none
  completedAt := none
  expiresAt := now + 3600000

/-- updateJobProgress from the jobs module. The update object is built as
updateData = (status, progress); the source guard
`if (status === "processing" and not updateData.startedAt)` inspects that
freshly created object, whose startedAt is always undefined, so it reduces
to the status test alone and startedAt is overwritten on every processing
update. completedAt is set whenever the written status is terminal. An
undefined progress or error argument leaves the stored column unchanged
(drizzle skips undefined set values); an empty error string is falsy and
is likewise not written. No branch inspects the job's current status. -/
def updateJobProgress (now : Int) (job : QueryJob) (status : JobStatus)
    (progress : Option String) (error : Option String) : QueryJob where
  status := status
  progress :=
    match progress with
    | some p => some p
    | none => job.progress
  params := job.params
  response := job.response
  sources := job.sources
  allMatchingChunks := job.allMatchingChunks
  confidence := job.confidence
  error :=
    match error with
    | some e => if e = "" then job.error else some e
    | none => job.error
  createdAt := job.createdAt
  startedAt := if status = .processing then some now else job.startedAt
  completedAt :=
    if status = .completed ∨ status = .failed then some now else job.completedAt
  expiresAt := job.expiresAt

/-- The results record passed to storeJobResults. The verified field is
accepted by the function signature but never written to the table. -/
structure JobResults where
  response : String
  sources : List SourceEntry
  allMatchingChunks : Option (List DisplayChunk)
  confidence : Option Nat
  verified : Option Bool
deriving Repr

/-- storeJobResults: unconditionally writes status completed, the response,
sources and completedAt; allMatchingChunks and confidence are skipped when
absent (undefined set values); confidence is stored as its decimal string.
No branch inspects the job's current status. -/
def storeJobResults (now : Int) (job : QueryJob) (results : JobResults) : QueryJob where
  status := .completed
  progress := job.progress
  params := job.params
  response := some results.response
  sources := some results.sources
  allMatchingChunks :=
    match results.allMatchingChunks with
    | some l => some l
    | none => job.allMatchingChunks
  confidence :=
    match results.confidence with
    | some c => some (toString c)
    | none => job.confidence
  error := job.error
  createdAt := job.createdAt
  startedAt := job.startedAt
  completedAt := some now
  expiresAt := job.expiresAt

/-- markJobFailed: unconditionally writes status failed, the error text and
completedAt. No branch inspects the job's current status. -/
def markJobFailed (now : Int) (job : QueryJob) (error : String) : QueryJob where
  status := .failed
  progress := job.progress
  params := job.params
  response := job.response
  sources := job.sources
  allMatchingChunks := job.allMatchingChunks
  confidence := job.confidence
  error := some error
  createdAt := job.createdAt
  startedAt := job.startedAt
  completedAt := some now
  expiresAt := job.expiresAt

/-- cleanupExpiredJobs: deletes the rows matching its where-clause
eq(queryJobs.expiresAt, now) - equality with the current instant, not a
past-expiry comparison - and returns the surviving rows together with the
deleted-row count (result.rowCount or 0). -/
def cleanupExpiredJobs (now : Int) (jobs : List QueryJob) : List QueryJob × Nat :=
  (jobs.filter (fun j => j.expiresAt != now),
   (jobs.filter (fun j => j.expiresAt == now)).length)

/-- Lexical relevance normalization from the hybrid similarity SQL:
LEAST(paradedb.score(id) / 10.0, 1.0). -/
def bm25Normalize (raw : ℚ) : ℚ :=
  min (raw / 10) 1

/-- Vector similarity from the hybrid similarity SQL: 1 - cosine distance. -/
def vectorSim (dist : ℚ) : ℚ :=
  1 - dist

/-- The per-row fused similarity of findSimilarEmbeddings, selected by the
weight edge cases in source order: if vectorWeight is 0 the score is the
normalized lexical score; else if textWeight is 0 it is the vector
similarity; else it is the weighted sum. `dist` is the cosine distance of
the row, `raw` its paradedb lexical score. -/
def similarityCalc (vectorWeight textWeight dist raw : ℚ) : ℚ :=
  if vectorWeight = 0 then bm25Normalize raw
  else if textWeight = 0 then vectorSim dist
  else vectorWeight * vectorSim dist + textWeight * bm25Normalize raw

/-- Parsed chunk metadata, the fields the pipeline reads after
parseMetadata(row.metadata): a JSON parse of the stored metadata string,
carried explicitly alongside the raw string. -/
structure ChunkMeta where
  pmid : Option String
  title : Option String
  authors : Option String
  year : Option String
  journal : Option String
deriving DecidableEq, Repr

/-- A row of the findSimilarEmbeddings result set: content, the raw
metadata string, its parsed form, and the fused similarity. -/
structure RetrievedChunk where
  content : String
  metadataRaw : String
  meta : ChunkMeta
  similarity : ℚ
deriving DecidableEq, Repr

/-- A row of the wider allMatchingChunks display query. -/
structure MatchingChunk where
  id : Int
  content : String
  metadataRaw : String
  similarity : ℚ
deriving DecidableEq, Repr

/-- estimateTokens: Math.ceil(text.length / 4). -/
def estimateTokens (text : String) : Nat :=
  (text.length + 3) / 4

/-- Two-digit lowercase hex rendering of a byte value, for JSON \u00XX
escapes of control characters. -/
def hexDigitChar (n : Nat) : Char :=
  if n < 10 then Char.ofNat (48 + n) else Char.ofNat (87 + n)

/-- JSON escaping of one character, following JSON.stringify: quote and
backslash are backslash-escaped, the named control escapes are used for
\b \t \n \f \r, and the remaining control characters become \u00XX. -/
def jsonEscapeChar (c : Char) : String :=
  if c = '"' then "\\\""
  else if c = '\\' then "\\\\"
  else if c = '\x08' then "\\b"
  else if c = '\t' then "\\t"
  else if c = '\n' then "\\n"
  else if c = '\x0C' then "\\f"
  else if c = '\r' then "\\r"
  else if c.toNat < 32 then
    String.mk ['\\', 'u', '0', '0', hexDigitChar (c.toNat / 16), hexDigitChar (c.toNat % 16)]
  else String.singleton c

/-- JSON.stringify of a string value. -/
def jsonQuote (s : String) : String :=
  "\"" ++ String.join (s.data.map jsonEscapeChar) ++ "\""

/-- JSON.stringify of the object built in applyTokenLimit from a chunk:
an object with the content and the raw metadata string. Braces are written
as \x7b and \x7d character escapes. -/
def jsonStringifyPair (content metadataRaw : String) : String :=
  "\x7b\"content\":" ++ jsonQuote content ++ ",\"metadata\":" ++ jsonQuote metadataRaw ++ "\x7d"

/-- Estimated token cost of a chunk inside applyTokenLimit. -/
def chunkCost (c : RetrievedChunk) : Nat :=
  estimateTokens (jsonStringifyPair c.content c.metadataRaw)

/-- The budget available to applyTokenLimit: the target minus the token
estimate of the context summary line minus the 500-token response
reserve. -/
def availableTokensFor (targetTokens : Int) (query : String) : Int :=
  targetTokens - estimateTokens ("Research Context: Query: \"" ++ query ++ "\"\n\n") - 500

/-- First selection pass of applyTokenLimit over the indexed result rows:
one chunk per unseen paper (metadata.pmid || 'unknown'), accumulating cost
while it fits the budget; the loop breaks at the first new-paper chunk
that does not fit. Returns the selected rows, the accumulated total and
the seen-paper set. -/
def tokenPassOne (avail : Int) :
    List (Nat × RetrievedChunk) → Int → List String →
    List (Nat × RetrievedChunk) × Int × List String
  | [], total, seen => ([], total, seen)
  | (i, c) :: rest, total, seen =>
    let p := jsOrString c.meta.pmid "unknown"
    if seen.contains p then tokenPassOne avail rest total seen
    else
      let ct : Int := chunkCost c
      if total + ct ≤ avail then
        let r := tokenPassOne avail rest (total + ct) (p :: seen)
        ((i, c) :: r.1, r.2)
      else ([], total, seen)

/-- Second selection pass of applyTokenLimit: fills the remaining budget
with rows not already selected (the source membership test is reference
identity, modelled by the row's position), breaking at the first row that
does not fit. -/
def tokenPassTwo (avail : Int) (selectedIdx : List Nat) :
    List (Nat × RetrievedChunk) → Int → List (Nat × RetrievedChunk)
  | [], _ => []
  | (i, c) :: rest, total =>
    if selectedIdx.contains i then tokenPassTwo avail selectedIdx rest total
    else
      let ct : Int := chunkCost c
      if total + ct ≤ avail then (i, c) :: tokenPassTwo avail selectedIdx rest (total + ct)
      else []

/-- applyTokenLimit from query.ts: when the available budget is
nonpositive the top row alone is returned; otherwise the diversity-first
pass and the fill pass select rows greedily within the budget. -/
def applyTokenLimit (results : List RetrievedChunk) (targetTokens : Int) (query : String) :
    List RetrievedChunk :=
  let avail := availableTokensFor targetTokens query
  if avail ≤ 0 then results.take 1
  else
    let indexed := results.enum
    let firstPass := tokenPassOne avail indexed 0 []
    let secondPass := tokenPassTwo avail (firstPass.1.map (·.1)) indexed firstPass.2.1
    (firstPass.1 ++ secondPass).map (·.2)

/-- Grouping key for the per-paper cap: parseMetadata(emb.metadata).pmid
with the falsy fallback 'no-pmid'. -/
def pmidKeyOf (c : RetrievedChunk) : String :=
  jsOrString c.meta.pmid "no-pmid"

/-- One step of building chunksByPaper: push the chunk onto the list held
under its key, creating the key at the end on first occurrence (JS object
property creation order). -/
def insertGroup : List (String × List RetrievedChunk) → String → RetrievedChunk →
    List (String × List RetrievedChunk)
  | [], p, c => [(p, [c])]
  | (q, cs) :: rest, p, c =>
    if q = p then (q, cs ++ [c]) :: rest else (q, cs) :: insertGroup rest p c

/-- chunksByPaper from the handler: fold the retrieval selection into a
keyed record, in encounter order. -/
def chunksByPaper (sim : List RetrievedChunk) : List (String × List RetrievedChunk) :=
  sim.foldl (fun gs c => insertGroup gs (pmidKeyOf c) c) []

/-- Whether a string is a JS array-index property key: a canonical decimal
numeral below 2^32 - 1. Object.entries enumerates such keys first, in
ascending numeric order, before the remaining keys in insertion order. -/
def isJsArrayIndexKey (s : String) : Bool :=
  s.data ≠ [] && s.data.all (·.isDigit) && (s == "0" || s.data.head? != some '0')
    && s.toNat?.getD 0 < 4294967295

/-- Numeric value of an array-index key, for the enumeration order. -/
def keyNatValue (s : String) : Nat :=
  s.toNat?.getD 0

/-- Insertion into a list sorted ascending by array-index key value. -/
def insertByKeyValue (g : String × List RetrievedChunk) :
    List (String × List RetrievedChunk) → List (String × List RetrievedChunk)
  | [] => [g]
  | h :: t =>
    if keyNatValue g.1 ≤ keyNatValue h.1 then g :: h :: t
    else h :: insertByKeyValue g t

/-- Insertion sort ascending by array-index key value. -/
def sortByKeyValue : List (String × List RetrievedChunk) → List (String × List RetrievedChunk)
  | [] => []
  | g :: rest => insertByKeyValue g (sortByKeyValue rest)

/-- Object.entries enumeration order on the chunksByPaper record: the
array-index-like keys in ascending numeric order first, then the remaining
keys in insertion order. -/
def jsEntriesOrder (gs : List (String × List RetrievedChunk)) :
    List (String × List RetrievedChunk) :=
  sortByKeyValue (gs.filter (fun g => isJsArrayIndexKey g.1))
    ++ gs.filter (fun g => !isJsArrayIndexKey g.1)

/-- processedChunks from the handler: enumerate the per-paper record,
keep at most maxChunksPerPaper chunks of each paper (slice from the front)
and flatten the groups back into one list. -/
def processedChunks (sim : List RetrievedChunk) (maxChunksPerPaper : Nat) :
    List RetrievedChunk :=
  ((jsEntriesOrder (chunksByPaper sim)).map (fun g => g.2.take maxChunksPerPaper)).flatten

/-- JS String.split(' ') keeps empty fragments; the source indexes its
result, so the last fragment models Array.pop() and the first fragment
feeds charAt(0). -/
def lastSpaceToken (s : String) : String :=
  ((s.splitOn " ").getLast?).getD ""

/-- First fragment of String.split(' '). -/
def firstSpaceToken (s : String) : String :=
  ((s.splitOn " ").head?).getD ""

/-- shortenAuthors from query.ts: one author becomes "Last F"; two or
three become comma-joined last names; more become "First et al."; a
missing or empty author string becomes "N/A". -/
def shortenAuthors (authors : Option String) : String :=
  match authors with
  | none => "N/A"
  | some a =>
    if a = "" then "N/A"
    else
      let authorList := (a.splitOn ",").map (·.trim)
      if authorList.length = 1 then
        lastSpaceToken (authorList.headI) ++ " " ++ (firstSpaceToken (authorList.headI)).take 1
      else if authorList.length ≤ 3 then
        String.intercalate ", " (authorList.map lastSpaceToken)
      else
        lastSpaceToken (authorList.headI) ++ " et al."

/-- parseInt applied to the metadata year string: leading-whitespace skip,
optional sign, maximal digit prefix; none models NaN. -/
def jsParseIntStr (s : String) : Option Int :=
  let t := s.data.dropWhile (·.isWhitespace)
  let signed : Bool × List Char :=
    match t with
    | '-' :: rest => (true, rest)
    | '+' :: rest => (false, rest)
    | _ => (false, t)
  let digits := signed.2.takeWhile (·.isDigit)
  if digits = [] then none
  else
    let n : Nat := digits.foldl (fun acc c => 10 * acc + (c.toNat - 48)) 0
    some (if signed.1 then -(n : Int) else (n : Int))

/-- parseInt(metadata.year) || 2020 from the context loop: NaN and the
falsy 0 both fall back to 2020. -/
def yearOf (meta : ChunkMeta) : Int :=
  match meta.year with
  | none => 2020
  | some s =>
    match jsParseIntStr s with
    | none => 2020
    | some n => if n = 0 then 2020 else n

/-- Number.toFixed(1) on a rational: the integer n closest to 10q (larger
n on ties), rendered with one decimal digit. -/
def toFixed1 (q : ℚ) : String :=
  let r : ℚ := q * 10 + 1 / 2
  let n : Int := r.num.fdiv (r.den : Int)
  let m : Nat := n.natAbs
  (if n < 0 then "-" else "") ++ toString (m / 10) ++ "." ++ toString (m % 10)

/-- The compact per-chunk context header from the handler: citation index,
shortened title, first journal token, year, shortened authors, PMID and
similarity percentage. -/
def chunkHeaderText (sourceIndex : Nat) (c : RetrievedChunk) : String :=
  let title := jsOrString c.meta.title "Unknown Title"
  let shortTitle := if title.length > 80 then title.take 80 ++ "..." else title
  let journal := jsOrString c.meta.journal "Unknown Journal"
  "[" ++ toString sourceIndex ++ "] " ++ shortTitle
    ++ " (" ++ firstSpaceToken journal ++ ", " ++ toString (yearOf c.meta) ++ ") - "
    ++ shortenAuthors c.meta.authors
    ++ " - PMID:" ++ jsOrString c.meta.pmid "N/A"
    ++ " [" ++ toFixed1 (c.similarity * 100) ++ "%]"

/-- The text block one chunk contributes to the context: header, newline,
trimmed content, newline. -/
def chunkTextOf (sourceIndex : Nat) (c : RetrievedChunk) : String :=
  chunkHeaderText sourceIndex c ++ "\n" ++ c.content.trim ++ "\n"

/-- The context accumulation loop of the handler: chunks are appended in
order with 1-based citation indices; the loop breaks - without truncating
a chunk - once the next chunk would push the token estimate over the
ceiling, provided at least one chunk is already in. Returns the chunks
whose text was appended. -/
def contextLoop (maxContextTokens : Int) :
    List RetrievedChunk → Nat → Int → String → List RetrievedChunk
  | [], _, _, _ => []
  | c :: rest, idx, current, ctx =>
    let text := chunkTextOf idx c
    let ct : Int := estimateTokens text
    if current + ct > maxContextTokens ∧ ctx.length > 0 then []
    else c :: contextLoop maxContextTokens rest (idx + 1) (current + ct) (ctx ++ text ++ "\n")

/-- The chunks whose text is included in the prompt context sent to the
model: the per-paper-capped selection, truncated by the complexity-tier
context token ceiling. -/
def contextChunks (sim : List RetrievedChunk) (maxChunksPerPaper : Nat)
    (maxContextTokens : Int) : List RetrievedChunk :=
  contextLoop maxContextTokens (processedChunks sim maxChunksPerPaper) 1 0 ""

/-- Builder for the stored sources array, with an explicit running
1-based index (the source maps over similarEmbeddings with its position). -/
def buildSourcesFrom (i : Nat) : List RetrievedChunk → List SourceEntry
  | [] => []
  | c :: rest =>
    { index := i + 1, content := c.content, similarity := c.similarity,
      metadata := c.metadataRaw } :: buildSourcesFrom (i + 1) rest

/-- The sources array stored on a completed job: every chunk of the
retrieval selection, indexed by its 1-based position in that selection. -/
def buildSources (sim : List RetrievedChunk) : List SourceEntry :=
  buildSourcesFrom 0 sim

/-- usedInContext as computed by the handler: membership, by content
equality, in the retrieval selection similarEmbeddings. -/
def usedInContextFlag (sim : List RetrievedChunk) (c : MatchingChunk) : Bool :=
  sim.any (fun emb => emb.content == c.content)

/-- citedInResponse as computed by the handler: the chunk's 1-based
position in the retrieval selection (by content equality) is in the cited
index set extracted from the response. -/
def citedInResponseFlag (sim : List RetrievedChunk) (cited : List Nat)
    (c : MatchingChunk) : Bool :=
  match sim.findIdx? (fun emb => emb.content == c.content) with
  | some i => cited.contains (i + 1)
  | none => false

/-- Builder for the stored allMatchingChunks array on the normal
completion path, with an explicit running 1-based display index. The
cited-index set produced by the extractCitedSources scan of the response
is passed in. -/
def buildAllMatchingFrom (sim : List RetrievedChunk) (cited : List Nat) (i : Nat) :
    List MatchingChunk → List DisplayChunk
  | [] => []
  | c :: rest =>
    { index := i + 1, content := c.content, id := c.id, similarity := c.similarity,
      metadata := c.metadataRaw, usedInContext := usedInContextFlag sim c,
      citedInResponse := citedInResponseFlag sim cited c }
      :: buildAllMatchingFrom sim cited (i + 1) rest

/-- The allMatchingChunks array stored on a completed job with a nonempty
retrieval selection. -/
def buildAllMatching (matching : List MatchingChunk) (sim : List RetrievedChunk)
    (cited : List Nat) : List DisplayChunk :=
  buildAllMatchingFrom sim cited 0 matching

/-- The allMatchingChunks array stored by the empty-retrieval completion
path: usedInContext is the literal false and no citedInResponse field is
written (modelled as false). -/
def buildAllMatchingEmptyCase (i : Nat) : List MatchingChunk → List DisplayChunk
  | [] => []
  | c :: rest =>
    { index := i + 1, content := c.content, id := c.id, similarity := c.similarity,
      metadata := c.metadataRaw, usedInContext := false, citedInResponse := false }
      :: buildAllMatchingEmptyCase (i + 1) rest

/-- Outcome of the verification completion call, as the pipeline observes
it: an exception (network failure or the 10-minute abort), a non-success
HTTP response, or a successful response with a reply body. -/
inductive FetchOutcome where
  | failure : FetchOutcome
  | nonSuccess : FetchOutcome
  | success : String → FetchOutcome
deriving DecidableEq, Repr

/-- Match for /VERIFIED_RESPONSE:\s*([\s\S]*?)CONFIDENCE:/ - the captured
group is the text after the first VERIFIED_RESPONSE: marker (leading
whitespace stripped by the \s*) up to the next CONFIDENCE: marker; none
when the markers do not occur in that order. -/
def findVerifiedMatch (s : String) : Option String :=
  match s.splitOn "VERIFIED_RESPONSE:" with
  | [] => none
  | [_] => none
  | _ :: rest =>
    let after := String.intercalate "VERIFIED_RESPONSE:" rest
    match after.splitOn "CONFIDENCE:" with
    | [] => none
    | [_] => none
    | grp :: _ =>
      some (String.mk (grp.data.dropWhile (·.isWhitespace)))

/-- Match for /CONFIDENCE:\s*(\d+)/ - the first CONFIDENCE: marker that is
followed (after optional whitespace) by at least one digit yields that
digit run's value; none when no such occurrence exists. -/
def findConfidenceMatch (s : String) : Option Nat :=
  match s.splitOn "CONFIDENCE:" with
  | [] => none
  | [_] => none
  | _ :: parts =>
    let firstDigits : List String → Option Nat := fun ps =>
      ps.foldl
        (fun acc p =>
          match acc with
          | some n => some n
          | none =>
            let digits := (p.data.dropWhile (·.isWhitespace)).takeWhile (·.isDigit)
            if digits = [] then none
            else some (digits.foldl (fun a c => 10 * a + (c.toNat - 48)) 0))
        none
    firstDigits parts

/-- verifyResponse from the worker: on an exception or a non-success
response the original answer with neutral confidence 50 is returned; on
success the two markers are parsed, each falling back independently (the
original answer when VERIFIED_RESPONSE: does not parse, 50 when
CONFIDENCE: does not parse). The captured answer is trimmed. -/
def verifyResponse (response : String) (outcome : FetchOutcome) : String × Nat :=
  match outcome with
  | .failure => (response, 50)
  | .nonSuccess => (response, 50)
  | .success body =>
    let verifiedResponse :=
      match findVerifiedMatch body with
      | some grp => grp.trim
      | none => response
    let confidence :=
      match findConfidenceMatch body with
      | some n => n
      | none => 50
    (verifiedResponse, confidence)

/-- The fixed reply stored when the retrieval selection is empty. -/
def noResultsMessage : String :=
  "I couldn't find any relevant information in the selected RAG dataset to answer your question."

/-- Tail of the background worker handler: the empty-retrieval path stores
a completed job with empty sources and no confidence; the normal path runs
optional verification (default confidence 85 when disabled), then stores
the response, sources, display chunks and confidence. The cited-index set
of the extractCitedSources scan is passed in. -/
def backgroundComplete (now : Int) (job : QueryJob) (sim : List RetrievedChunk)
    (matching : List MatchingChunk) (initialResponse : String)
    (enableVerification : Bool) (outcome : FetchOutcome) (cited : List Nat) : QueryJob :=
  if sim.isEmpty then
    storeJobResults now job
      { response := noResultsMessage, sources := [],
        allMatchingChunks := some (buildAllMatchingEmptyCase 0 matching),
        confidence := none, verified := none }
  else
    let vr := if enableVerification then verifyResponse initialResponse outcome
              else (initialResponse, 85)
    storeJobResults now job
      { response := vr.1, sources := buildSources sim,
        allMatchingChunks := some (buildAllMatching matching sim cited),
        confidence := some vr.2, verified := some enableVerification }

/-- The response body of the synchronous query endpoint, restricted to the
fields the claims inspect. -/
structure SyncBody where
  response : String
  confidence : Option Nat
  verified : Option Bool
  sources : List SourceEntry
  allMatchingChunks : List DisplayChunk
deriving DecidableEq, Repr

/-- Tail of the synchronous query handler: the empty-retrieval body has no
confidence or verified field; the normal body carries the verification
confidence, or the fixed default 85 when verification is disabled. -/
def syncQueryBody (sim : List RetrievedChunk) (matching : List MatchingChunk)
    (initialResponse : String) (enableVerification : Bool) (outcome : FetchOutcome)
    (cited : List Nat) : SyncBody :=
  if sim.isEmpty then
    { response := noResultsMessage, confidence := none, verified := none,
      sources := [], allMatchingChunks := buildAllMatchingEmptyCase 0 matching }
  else
    let vr := if enableVerification then verifyResponse initialResponse outcome
              else (initialResponse, 85)
    { response := vr.1, confidence := some vr.2, verified := some enableVerification,
      sources := buildSources sim,
      allMatchingChunks := buildAllMatching matching sim cited }

/-- parseFloat on the stored confidence string: optional sign, integer
digits, optional fraction digits; none models NaN. Only the decimal forms
produced by storeJobResults occur. -/
def parseFloatSimple (s : String) : Option ℚ :=
  let t := s.data.dropWhile (·.isWhitespace)
  let signed : Bool × List Char :=
    match t with
    | '-' :: rest => (true, rest)
    | '+' :: rest => (false, rest)
    | _ => (false, t)
  let intDigits := signed.2.takeWhile (·.isDigit)
  if intDigits = [] then none
  else
    let afterInt : List Char := signed.2.drop intDigits.length
    let fracDigits : List Char :=
      match afterInt with
      | '.' :: rest => rest.takeWhile (·.isDigit)
      | _ => []
    let intPart : Nat := intDigits.foldl (fun a c => 10 * a + (c.toNat - 48)) 0
    let fracPart : ℚ :=
      fracDigits.foldr (fun c acc => ((c.toNat - 48 : Nat) + acc) / 10) 0
    let mag : ℚ := (intPart : ℚ) + fracPart
    some (if signed.1 then -mag else mag)

/-- The view the query-status endpoint returns for a found job. -/
inductive StatusView where
  | expired : StatusView
  | completedView : Option String → Option ℚ → Bool → StatusView
  | failedView : String → StatusView
  | inProgress : String → StatusView
deriving DecidableEq, Repr

/-- The query-status endpoint on a found job: the expiry check runs first
(now strictly past expiresAt yields the expired signal regardless of the
stored status); a completed job reports its response, its parsed
confidence (absent when the column is empty) and
verified = params.enableVerification; a failed job reports its error text
with a fixed fallback; otherwise the progress text is reported. -/
def statusRead (now : Int) (job : QueryJob) : StatusView :=
  if now > job.expiresAt then .expired
  else
    match job.status with
    | .completed =>
      .completedView job.response
        (match job.confidence with
         | some c => if c = "" then none else parseFloatSimple c
         | none => none)
        job.params.enableVerification
    | .failed => .failedView (jsOrString job.error "Query processing failed")
    | _ => .inProgress (jsOrString job.progress "Processing query...")

/-- The verification-degradation condition of the error-handling design:
the verification call raised, returned non-success, or returned a reply in
which neither marker parses. -/
def verificationDegraded (o : FetchOutcome) : Prop :=
  o = .failure ∨ o = .nonSuccess ∨
    ∃ b, o = .success b ∧ findVerifiedMatch b = none ∧ findConfidenceMatch b = none

/-- Content held under a key in a grouped record, by the first matching
entry (the find?-based view used in the grouping proofs). -/
def contentOf (gs : List (String × List RetrievedChunk)) (p : String) :
    List RetrievedChunk :=
  ((gs.find? (fun g => g.1 == p)).map Prod.snd).getD []

/-- Content held under a key in a grouped record, across all matching
entries (the filter-based view used in the grouping proofs). -/
def contentFull (gs : List (String × List RetrievedChunk)) (p : String) :
    List RetrievedChunk :=
  ((gs.filter (fun g => g.1 == p)).map Prod.snd).flatten

/-- Well-keyedness of a grouped record: every chunk sits under its own
pmid key. -/
def groupsKeyed (gs : List (String × List RetrievedChunk)) : Prop :=
  ∀ g ∈ gs, ∀ c ∈ g.2, pmidKeyOf c = g.1

/-- A typical sanitized parameter record, used by the concrete jobs below
(verification disabled). -/
def sampleParams : SanitizedInput where
  ragId := some "rag-gene-regulation"
  query := some "what regulates gene expression"
  model := none
  complexity := some "complex"
  retrievalStrategy := none
  enableVerification := false
  maxChunksPerPaper := 3
  targetTokens := 1500
  similarityThreshold := 3/10
  vectorWeight := 7/10
  textWeight := 3/10
  outputStyle := none

/-- The same parameter record with verification enabled. -/
def verifParams : SanitizedInput :=
  { sampleParams with enableVerification := true }

/-- A results record for exercising storeJobResults on its own. -/
def sampleResults : JobResults where
  response := "the synthesized answer"
  sources := []
  allMatchingChunks := none
  confidence := some 85
  verified := some false

/-- A job completed once through storeJobResults. -/
def jobCompletedOnce : QueryJob :=
  storeJobResults 2000 (createQueryJob 1000 sampleParams) sampleResults

/-- A job that has received its first processing update at t = 1000. -/
def jobProcessingOnce : QueryJob :=
  updateJobProgress 1000 (createQueryJob 500 sampleParams) .processing
    (some "Initializing query processing...") none

/-- A job created at t = 0, hence expiring at t = 3600000. -/
def expiredJob : QueryJob :=
  createQueryJob 0 sampleParams

/-- A chunk whose serialized cost exceeds a tiny positive budget. -/
def smallBudgetChunk : RetrievedChunk where
  content := "short"
  metadataRaw := ""
  meta := { pmid := none, title := none, authors := none, year := none, journal := none }
  similarity := 1/2

/-- A chunk fitting comfortably in an ordinary budget. -/
def roomyBudgetChunk : RetrievedChunk where
  content := "calcium binds calmodulin"
  metadataRaw := ""
  meta := { pmid := some "42", title := none, authors := none, year := none, journal := none }
  similarity := 3/5

/-- Top-scored chunk of paper 1 in the grouping counterexample. -/
def paperOneHigh : RetrievedChunk where
  content := "paper one, first chunk"
  metadataRaw := ""
  meta := { pmid := some "1", title := none, authors := none, year := none, journal := none }
  similarity := 9/10

/-- Low-scored chunk of paper 1 in the grouping counterexample. -/
def paperOneLow : RetrievedChunk where
  content := "paper one, second chunk"
  metadataRaw := ""
  meta := { pmid := some "1", title := none, authors := none, year := none, journal := none }
  similarity := 1/10

/-- The only chunk of paper 2 in the grouping counterexample. -/
def paperTwoMid : RetrievedChunk where
  content := "paper two, only chunk"
  metadataRaw := ""
  meta := { pmid := some "2", title := none, authors := none, year := none, journal := none }
  similarity := 8/10

/-- Retrieval-selection chunk that survives the per-paper cap. -/
def chunkAlpha : RetrievedChunk where
  content := "alpha"
  metadataRaw := ""
  meta := { pmid := some "7", title := none, authors := none, year := none, journal := none }
  similarity := 1/2

/-- Retrieval-selection chunk of the same paper, dropped by the cap. -/
def chunkBeta : RetrievedChunk where
  content := "beta"
  metadataRaw := ""
  meta := { pmid := some "7", title := none, authors := none, year := none, journal := none }
  similarity := 2/5

/-- Display-query row whose content matches the cap-dropped chunk. -/
def dispBeta : MatchingChunk where
  id := 5
  content := "beta"
  metadataRaw := ""
  similarity := 2/5

/-- The allMatchingChunks entry the handler stores for dispBeta. -/
def dispBetaEntry : DisplayChunk where
  index := 1
  content := "beta"
  id := 5
  similarity := 2/5
  metadata := ""
  usedInContext := true
  citedInResponse := false

/-- A raw request that passes validation with the chunk cap supplied as
the number 0. -/
def rawZeroChunks : RawInput where
  query := some "how do cells respond to stimuli"
  ragId := some "rag-gene-regulation"
  model := none
  complexity := none
  retrievalStrategy := none
  enableVerification := false
  maxChunksPerPaper := .num 0
  targetTokens := .undef
  similarityThreshold := .undef
  vectorWeight := .undef
  textWeight := .undef
  outputStyle := none

/-- A raw request with every numeric knob supplied as a nonzero
out-of-range number. -/
def rawTypical : RawInput where
  query := some "protein binding dynamics"
  ragId := some "rag-gene-regulation"
  model := none
  complexity := none
  retrievalStrategy := none
  enableVerification := false
  maxChunksPerPaper := .num 20
  targetTokens := .num 500
  similarityThreshold := .num 2
  vectorWeight := .num (1/2)
  textWeight := .num (1/2)
  outputStyle := none

/-- A retrieval chunk for the verification-degradation scenario. -/
def verifChunk : RetrievedChunk where
  content := "pin1 regulates tau phosphorylation"
  metadataRaw := ""
  meta := { pmid := some "9", title := none, authors := none, year := none, journal := none }
  similarity := 4/5

/-- A retrieval chunk for the default-confidence scenario. -/
def confChunk : RetrievedChunk where
  content := "kinase activation cascade"
  metadataRaw := ""
  meta := { pmid := some "11", title := none, authors := none, year := none, journal := none }
  similarity := 3/4

/-! Theorems. Each claim is settled by the doc-commented theorem bearing
its identifier, together with a witness or counterexample where one is
required. -/

/-- C1 (counterexample): the terminal-idempotence claim fails on the code.
A job completed through storeJobResults is moved back to processing by a
later updateJobProgress call: none of the update operations guards the
terminal states. -/
theorem c1_counterexample :
    jobCompletedOnce.status = JobStatus.completed ∧
    (updateJobProgress 3000 jobCompletedOnce JobStatus.processing
        (some "restarted") none).status = JobStatus.processing ∧
    (updateJobProgress 3000 jobCompletedOnce JobStatus.processing
        (some "restarted") none).status ≠ JobStatus.completed := by
  refine ⟨rfl, rfl, ?_⟩
  decide

/-- C1 (amended): the update operations of the jobs module apply
unconditionally - even on a job already in a terminal state,
updateJobProgress writes whatever status it is given, storeJobResults
rewrites status, completedAt and the response, and markJobFailed rewrites
status, completedAt and the error; no operation inspects the stored status
before writing. -/
theorem c1_no_terminal_guard (now : Int) (j : QueryJob)
    (_hterm : j.status = JobStatus.completed ∨ j.status = JobStatus.failed) :
    ∀ (st : JobStatus) (p e : Option String) (r : JobResults) (msg : String),
      (updateJobProgress now j st p e).status = st ∧
      (storeJobResults now j r).status = JobStatus.completed ∧
      (storeJobResults now j r).completedAt = some now ∧
      (storeJobResults now j r).response = some r.response ∧
      (markJobFailed now j msg).status = JobStatus.failed ∧
      (markJobFailed now j msg).completedAt = some now ∧
      (markJobFailed now j msg).error = some msg := by
  intro st p e r msg
  exact ⟨rfl, rfl, rfl, rfl, rfl, rfl, rfl⟩

/-- C1 (witness): the amended theorem applied to the concrete completed
job, showing a pending-direction transition out of the terminal state. -/
theorem c1_no_terminal_guard_witness :
    jobCompletedOnce.status = JobStatus.completed ∧
    (updateJobProgress 3000 jobCompletedOnce JobStatus.pending none none).status
      = JobStatus.pending := by
  refine ⟨rfl, ?_⟩
  exact (c1_no_terminal_guard 3000 jobCompletedOnce (Or.inl rfl)
    JobStatus.pending none none sampleResults "boom").1

/-- C2: the startedAt-immutability claim is right and the code is wrong.
The source guard tests the freshly built update object instead of the
stored row, so a second processing update overwrites startedAt: the job
first processed at t = 1000 carries startedAt = 1000, and the next
processing update at t = 2000 rewrites it to 2000. -/
theorem c2_startedAt_overwritten :
    jobProcessingOnce.startedAt = some 1000 ∧
    (updateJobProgress 2000 jobProcessingOnce JobStatus.processing
        (some "Searching knowledge base...") none).startedAt = some 2000 ∧
    some (2000 : Int) ≠ some (1000 : Int) := by
  refine ⟨rfl, rfl, ?_⟩
  decide

/-- C3: the sweep claim is right and the code is wrong. cleanupExpiredJobs
deletes rows whose expiresAt equals the current instant instead of rows
whose expiresAt has passed: a job that expired at t = 3600000 survives a
sweep at t = 7200000 with a deleted count of 0, while a sweep at the exact
expiry millisecond would delete it. -/
theorem c3_expired_row_survives :
    expiredJob.expiresAt = 3600000 ∧
    (3600000 : Int) < 7200000 ∧
    cleanupExpiredJobs 7200000 [expiredJob] = ([expiredJob], 0) ∧
    cleanupExpiredJobs 3600000 [expiredJob] = ([], 1) := by
  exact ⟨rfl, by decide, rfl, rfl⟩

/-- Accounting invariant of the diversity-first pass: starting within
budget, the pass ends within budget and its running total is the starting
total plus the cost of what it selected. -/
theorem tokenPassOne_bound (avail : Int) :
    ∀ (l : List (Nat × RetrievedChunk)) (total : Int) (seen : List String),
      total ≤ avail →
      (tokenPassOne avail l total seen).2.1
          = total + ((tokenPassOne avail l total seen).1.map (fun x => (chunkCost x.2 : Int))).sum ∧
      (tokenPassOne avail l total seen).2.1 ≤ avail := by
  intro l
  induction l with
  | nil =>
    intro total seen h
    exact ⟨by simp [tokenPassOne], by simpa [tokenPassOne] using h⟩
  | cons hd tl ih =>
    intro total seen h
    obtain ⟨i, c⟩ := hd
    by_cases hseen : jsOrString c.meta.pmid "unknown" ∈ seen
    · have hu : tokenPassOne avail ((i, c) :: tl) total seen
          = tokenPassOne avail tl total seen := by
        simp [tokenPassOne, hseen]
      rw [hu]
      exact ih total seen h
    · by_cases hfit : total + (chunkCost c : Int) ≤ avail
      · have hrec := ih (total + (chunkCost c : Int))
          (jsOrString c.meta.pmid "unknown" :: seen) hfit
        have hu : tokenPassOne avail ((i, c) :: tl) total seen
            = ((i, c) :: (tokenPassOne avail tl (total + (chunkCost c : Int))
                  (jsOrString c.meta.pmid "unknown" :: seen)).1,
                (tokenPassOne avail tl (total + (chunkCost c : Int))
                  (jsOrString c.meta.pmid "unknown" :: seen)).2) := by
          simp [tokenPassOne, hseen, hfit]
        rw [hu]
        refine ⟨?_, ?_⟩
        · simp only [List.map_cons, List.sum_cons]
          rw [hrec.1]
          ring
        · exact hrec.2
      · have hu : tokenPassOne avail ((i, c) :: tl) total seen = ([], total, seen) := by
          simp [tokenPassOne, hseen, hfit]
        rw [hu]
        exact ⟨by simp, h⟩

/-- Accounting invariant of the fill pass: starting within budget, the
cost it adds keeps the total within budget. -/
theorem tokenPassTwo_bound (avail : Int) (sel : List Nat) :
    ∀ (l : List (Nat × RetrievedChunk)) (total : Int),
      total ≤ avail →
      total + ((tokenPassTwo avail sel l total).map (fun x => (chunkCost x.2 : Int))).sum ≤ avail := by
  intro l
  induction l with
  | nil =>
    intro total h
    simpa [tokenPassTwo] using h
  | cons hd tl ih =>
    intro total h
    obtain ⟨i, c⟩ := hd
    by_cases hsel : i ∈ sel
    · have hu : tokenPassTwo avail sel ((i, c) :: tl) total
          = tokenPassTwo avail sel tl total := by
        simp [tokenPassTwo, hsel]
      rw [hu]
      exact ih total h
    · by_cases hfit : total + (chunkCost c : Int) ≤ avail
      · have hrec := ih (total + (chunkCost c : Int)) hfit
        have hu : tokenPassTwo avail sel ((i, c) :: tl) total
            = (i, c) :: tokenPassTwo avail sel tl (total + (chunkCost c : Int)) := by
          simp [tokenPassTwo, hsel, hfit]
        rw [hu]
        simp only [List.map_cons, List.sum_cons]
        linarith
      · have hu : tokenPassTwo avail sel ((i, c) :: tl) total = [] := by
          simp [tokenPassTwo, hsel, hfit]
        rw [hu]
        simpa using h

/-- C4 (amended): applyTokenLimit respects the budget whenever the
available budget (target minus summary overhead minus the 500-token
response reserve) is positive - the selected chunks' total estimated cost
never exceeds it - and when the available budget is nonpositive it
returns the first (top-scored) row alone. The one-chunk floor fires only
on a nonpositive available budget: with a positive budget smaller than
every chunk the greedy passes return the empty list (see the
counterexample). -/
theorem c4_token_budget (results : List RetrievedChunk) (target : Int) (query : String) :
    (0 < availableTokensFor target query →
      ((applyTokenLimit results target query).map (fun c => (chunkCost c : Int))).sum
        ≤ availableTokensFor target query) ∧
    (availableTokensFor target query ≤ 0 →
      applyTokenLimit results target query = results.take 1) := by
  constructor
  · intro hpos
    have hnot : ¬ availableTokensFor target query ≤ 0 := not_le.mpr hpos
    have h1 := tokenPassOne_bound (availableTokensFor target query)
      results.enum 0 [] (le_of_lt hpos)
    have h2 := tokenPassTwo_bound (availableTokensFor target query)
      ((tokenPassOne (availableTokensFor target query) results.enum 0 []).1.map (·.1))
      results.enum
      (tokenPassOne (availableTokensFor target query) results.enum 0 []).2.1 h1.2
    simp only [applyTokenLimit, hnot, if_false]
    rw [List.map_map]
    simp only [Function.comp_def]
    rw [List.map_append, List.sum_append]
    omega
  · intro hle
    simp [applyTokenLimit, hle]

/-- C4 (witness): the budget-respecting part of the amended theorem at a
concrete positive budget and a chunk that fits. -/
theorem c4_token_budget_witness :
    (0 : Int) < availableTokensFor 5000 "abc" ∧
    ((applyTokenLimit [roomyBudgetChunk] 5000 "abc").map (fun c => (chunkCost c : Int))).sum
      ≤ availableTokensFor 5000 "abc" :=
  ⟨by decide, (c4_token_budget [roomyBudgetChunk] 5000 "abc").1 (by decide)⟩

/-- C4 (counterexample): the claim's floor guarantee fails on the code.
With target 510 the available budget is 2, which is positive, yet the
single candidate costs more than 2 and applyTokenLimit returns the empty
list - not one chunk - so the result is empty although the input is
nonempty and the target positive. -/
theorem c4_counterexample :
    (0 : Int) < availableTokensFor 510 "abc" ∧
    applyTokenLimit [smallBudgetChunk] 510 "abc" = [] ∧
    [smallBudgetChunk] ≠ ([] : List RetrievedChunk) := by
  refine ⟨by decide, by rfl, by simp⟩

/-- Inserting into the sorted prefix is a permutation of consing. -/
theorem insertByKeyValue_perm (g : String × List RetrievedChunk) :
    ∀ l, List.Perm (insertByKeyValue g l) (g :: l) := by
  intro l
  induction l with
  | nil => exact List.Perm.refl _
  | cons h t ih =>
    by_cases hle : keyNatValue g.1 ≤ keyNatValue h.1
    · simp [insertByKeyValue, hle]
    · have hu : insertByKeyValue g (h :: t) = h :: insertByKeyValue g t := by
        simp [insertByKeyValue, hle]
      rw [hu]
      exact (ih.cons h).trans (List.Perm.swap g h t)

/-- Insertion sort by key value is a permutation. -/
theorem sortByKeyValue_perm : ∀ l, List.Perm (sortByKeyValue l) l := by
  intro l
  induction l with
  | nil => exact List.Perm.refl _
  | cons g t ih => exact (insertByKeyValue_perm g (sortByKeyValue t)).trans (ih.cons g)

/-- The Object.entries enumeration order is a permutation of the record's
insertion order. -/
theorem jsEntriesOrder_perm (gs : List (String × List RetrievedChunk)) :
    List.Perm (jsEntriesOrder gs) gs := by
  unfold jsEntriesOrder
  exact ((sortByKeyValue_perm _).append_right _).trans (List.filter_append_perm _ gs)

/-- Effect of one insertGroup step on find?-based content: the chunk lands
at the end of its own key's content and every other key is untouched. -/
theorem contentOf_insertGroup (k : String) (c : RetrievedChunk) (p : String) :
    ∀ gs, contentOf (insertGroup gs k c) p
      = contentOf gs p ++ (if p = k then [c] else []) := by
  intro gs
  induction gs with
  | nil =>
    by_cases hpk : p = k
    · simp [insertGroup, contentOf, hpk]
    · have : (k == p) = false := by
        simp [BEq.beq]
        exact fun h => hpk h.symm
      simp [insertGroup, contentOf, this, hpk]
  | cons hd t ih =>
    obtain ⟨q, cs⟩ := hd
    by_cases hqk : q = k
    · subst hqk
      by_cases hpq : p = q
      · subst hpq
        simp [insertGroup, contentOf]
      · have hbeq : (q == p) = false := by
          simp [BEq.beq]
          exact fun h => hpq h.symm
        simp [insertGroup, contentOf, hbeq, hpq]
    · by_cases hpq : p = q
      · subst hpq
        simp [insertGroup, contentOf, hqk]
      · have hbeq : (q == p) = false := by
          simp [BEq.beq]
          exact fun h => hpq h.symm
        simp only [insertGroup, if_neg hqk]
        simp only [contentOf, List.find?_cons, hbeq]
        exact ih

/-- Folding the retrieval selection into the record appends, under each
key, exactly the chunks bearing that key, in order. -/
theorem contentOf_foldl (p : String) :
    ∀ (l : List RetrievedChunk) (gs : List (String × List RetrievedChunk)),
      contentOf (l.foldl (fun acc c => insertGroup acc (pmidKeyOf c) c) gs) p
        = contentOf gs p ++ l.filter (fun c => pmidKeyOf c == p) := by
  intro l
  induction l with
  | nil => intro gs; simp
  | cons c t ih =>
    intro gs
    rw [List.foldl_cons, ih, contentOf_insertGroup]
    by_cases hp : pmidKeyOf c = p
    · simp [hp, List.filter_cons]
    · have hb : (pmidKeyOf c == p) = false := by
        simp [BEq.beq]
        exact hp
      simp [List.filter_cons, hb, Ne.symm hp]

/-- The record built by chunksByPaper holds, under each key, the filter of
the selection by that key. -/
theorem contentOf_chunksByPaper (l : List RetrievedChunk) (p : String) :
    contentOf (chunksByPaper l) p = l.filter (fun c => pmidKeyOf c == p) := by
  have h := contentOf_foldl p l []
  simpa [chunksByPaper, contentOf] using h

/-- Keys of the record after one insertion: unchanged when the key is
present, appended otherwise. -/
theorem insertGroup_map_fst (k : String) (c : RetrievedChunk) :
    ∀ gs, (insertGroup gs k c).map Prod.fst
      = if k ∈ gs.map Prod.fst then gs.map Prod.fst else gs.map Prod.fst ++ [k] := by
  intro gs
  induction gs with
  | nil => simp [insertGroup]
  | cons hd t ih =>
    obtain ⟨q, cs⟩ := hd
    by_cases hqk : q = k
    · subst hqk
      simp [insertGroup]
    · have h2 : (k ∈ ((q, cs) :: t).map Prod.fst) ↔ (k ∈ t.map Prod.fst) := by
        simp [Ne.symm hqk]
      by_cases hmem : k ∈ t.map Prod.fst
      · simp [insertGroup, hqk, ih, hmem, h2]
      · simp [insertGroup, hqk, ih, hmem, h2, Ne.symm hqk]

/-- The record's keys stay nodup as the fold proceeds. -/
theorem foldl_insertGroup_nodup :
    ∀ (l : List RetrievedChunk) (gs : List (String × List RetrievedChunk)),
      (gs.map Prod.fst).Nodup →
      ((l.foldl (fun acc c => insertGroup acc (pmidKeyOf c) c) gs).map Prod.fst).Nodup := by
  intro l
  induction l with
  | nil => intro gs h; simpa using h
  | cons c t ih =>
    intro gs h
    rw [List.foldl_cons]
    refine ih _ ?_
    rw [insertGroup_map_fst]
    by_cases hmem : pmidKeyOf c ∈ gs.map Prod.fst
    · simpa [hmem] using h
    · simp only [hmem, if_false]
      simp [List.nodup_append, h, hmem]

/-- The keys of chunksByPaper are nodup. -/
theorem chunksByPaper_nodupKeys (l : List RetrievedChunk) :
    ((chunksByPaper l).map Prod.fst).Nodup := by
  have h := foldl_insertGroup_nodup l [] (by simp)
  simpa [chunksByPaper] using h

/-- Insertion preserves well-keyedness when the chunk goes under its own
key. -/
theorem insertGroup_keyed (c : RetrievedChunk) :
    ∀ gs, groupsKeyed gs → groupsKeyed (insertGroup gs (pmidKeyOf c) c) := by
  intro gs
  induction gs with
  | nil =>
    intro _ g hg c' hc'
    simp only [insertGroup] at hg
    rw [List.mem_singleton.mp hg] at hc' ⊢
    rw [List.mem_singleton.mp hc']
  | cons hd t ih =>
    obtain ⟨q, cs⟩ := hd
    intro h g hg c' hc'
    by_cases hqk : q = pmidKeyOf c
    · subst hqk
      have hins : insertGroup ((pmidKeyOf c, cs) :: t) (pmidKeyOf c) c
          = (pmidKeyOf c, cs ++ [c]) :: t := by
        simp [insertGroup]
      rw [hins] at hg
      rcases List.mem_cons.mp hg with hg1 | hg2
      · rw [hg1] at hc' ⊢
        rcases List.mem_append.mp hc' with hm | hm
        · exact h (pmidKeyOf c, cs) (List.mem_cons_self _ _) c' hm
        · rw [List.mem_singleton.mp hm]
      · exact h g (List.mem_cons_of_mem _ hg2) c' hc'
    · have hins : insertGroup ((q, cs) :: t) (pmidKeyOf c) c
          = (q, cs) :: insertGroup t (pmidKeyOf c) c := by
        simp [insertGroup, hqk]
      rw [hins] at hg
      rcases List.mem_cons.mp hg with hg1 | hg2
      · rw [hg1] at hc' ⊢
        exact h (q, cs) (List.mem_cons_self _ _) c' hc'
      · exact ih (fun g' hg' c'' hc'' => h g' (List.mem_cons_of_mem _ hg') c'' hc'') g hg2 c' hc'

/-- The record built by chunksByPaper is well-keyed. -/
theorem chunksByPaper_keyed (l : List RetrievedChunk) :
    groupsKeyed (chunksByPaper l) := by
  have main : ∀ (t : List RetrievedChunk) (gs : List (String × List RetrievedChunk)),
      groupsKeyed gs →
      groupsKeyed (t.foldl (fun acc c => insertGroup acc (pmidKeyOf c) c) gs) := by
    intro t
    induction t with
    | nil => intro gs h; simpa using h
    | cons c tl ih =>
      intro gs h
      rw [List.foldl_cons]
      exact ih _ (insertGroup_keyed c gs h)
  exact main l [] (by intro g hg; simp at hg)

/-- Well-keyedness transfers along a permutation. -/
theorem groupsKeyed_of_perm {gs gs' : List (String × List RetrievedChunk)}
    (hp : List.Perm gs gs') (h : groupsKeyed gs) : groupsKeyed gs' :=
  fun g hg c hc => h g (hp.mem_iff.mpr hg) c hc

/-- With nodup keys, at most one record entry bears any given key. -/
theorem filter_key_length_le_one (p : String) :
    ∀ gs : List (String × List RetrievedChunk),
      (gs.map Prod.fst).Nodup →
      (gs.filter (fun g => g.1 == p)).length ≤ 1 := by
  intro gs
  induction gs with
  | nil => intro _; simp
  | cons hd t ih =>
    obtain ⟨q, cs⟩ := hd
    intro h
    rw [List.map_cons, List.nodup_cons] at h
    by_cases hq : q = p
    · subst hq
      have h1 : q ∉ List.map Prod.fst t := h.1
      have ht : t.filter (fun g => g.1 == q) = [] := by
        rw [List.filter_eq_nil_iff]
        intro g hg
        simp only [beq_iff_eq]
        intro hq1
        exact h1 (by rw [← hq1]; exact List.mem_map_of_mem Prod.fst hg)
      simp [List.filter_cons, ht]
    · have hb : (q == p) = false := by
        simp [BEq.beq]
        exact hq
      simp only [List.filter_cons, hb, if_false]
      exact ih h.2

/-- Entries are absent for a key outside the key list. -/
theorem filter_key_eq_nil (p : String)
    (gs : List (String × List RetrievedChunk)) (h : p ∉ gs.map Prod.fst) :
    gs.filter (fun g => g.1 == p) = [] := by
  rw [List.filter_eq_nil_iff]
  intro g hg
  simp only [beq_iff_eq]
  intro hq
  exact h (by rw [← hq]; exact List.mem_map_of_mem Prod.fst hg)

/-- With nodup keys the filter-based and find?-based content coincide. -/
theorem contentFull_eq_contentOf (p : String) :
    ∀ gs : List (String × List RetrievedChunk),
      (gs.map Prod.fst).Nodup →
      contentFull gs p = contentOf gs p := by
  intro gs
  induction gs with
  | nil => intro _; rfl
  | cons hd t ih =>
    obtain ⟨q, cs⟩ := hd
    intro h
    rw [List.map_cons, List.nodup_cons] at h
    by_cases hq : q = p
    · subst hq
      have ht : t.filter (fun g => g.1 == q) = [] :=
        filter_key_eq_nil q t h.1
      simp [contentFull, contentOf, List.filter_cons, ht]
    · have hb : (q == p) = false := by
        simp [BEq.beq]
        exact hq
      have h1 : contentFull ((q, cs) :: t) p = contentFull t p := by
        simp [contentFull, List.filter_cons, hb]
      have h2 : contentOf ((q, cs) :: t) p = contentOf t p := by
        simp [contentOf, List.find?_cons, hb]
      rw [h1, h2]
      exact ih h.2

/-- With nodup keys, filter-based content is invariant under permutation
of the record entries. -/
theorem contentFull_of_perm (p : String)
    {gs gs' : List (String × List RetrievedChunk)}
    (hp : List.Perm gs gs') (hnd : (gs.map Prod.fst).Nodup) :
    contentFull gs p = contentFull gs' p := by
  have hf : List.Perm (gs.filter (fun g => g.1 == p)) (gs'.filter (fun g => g.1 == p)) :=
    hp.filter _
  have hlen := filter_key_length_le_one p gs hnd
  unfold contentFull
  rcases hfe : gs.filter (fun g => g.1 == p) with _ | ⟨g, rest⟩
  · rw [hfe] at hf
    rw [hfe, hf.symm.eq_nil]
  · rw [hfe] at hf hlen
    have hrest : rest = [] := by
      cases rest with
      | nil => rfl
      | cons a b => simp at hlen
    subst hrest
    have hg' : gs'.filter (fun g => g.1 == p) = [g] := List.perm_singleton.mp hf.symm
    rw [hfe, hg']

/-- Filtering the capped-and-flattened record by a key yields the first
maxChunksPerPaper chunks held under that key, for any well-keyed record
with nodup keys. -/
theorem flatten_take_filter (p : String) (n : Nat) :
    ∀ gs : List (String × List RetrievedChunk),
      groupsKeyed gs → (gs.map Prod.fst).Nodup →
      ((gs.map (fun g => g.2.take n)).flatten).filter (fun c => pmidKeyOf c == p)
        = (contentFull gs p).take n := by
  intro gs
  induction gs with
  | nil => intro _ _; simp [contentFull]
  | cons hd t ih =>
    obtain ⟨q, cs⟩ := hd
    intro hk hnd
    rw [List.map_cons, List.nodup_cons] at hnd
    have h1 : q ∉ List.map Prod.fst t := hnd.1
    have hkt : groupsKeyed t := fun g hg c hc => hk g (List.mem_cons_of_mem _ hg) c hc
    have hkh : ∀ c ∈ cs, pmidKeyOf c = q := fun c hc =>
      hk (q, cs) (List.mem_cons_self _ _) c hc
    rw [List.map_cons, List.flatten_cons, List.filter_append, ih hkt hnd.2]
    by_cases hq : q = p
    · subst hq
      have hhead : (cs.take n).filter (fun c => pmidKeyOf c == q) = cs.take n := by
        rw [List.filter_eq_self]
        intro c hc
        simp only [beq_iff_eq]
        exact hkh c (List.mem_of_mem_take hc)
      have htail : contentFull t q = [] := by
        unfold contentFull
        rw [filter_key_eq_nil q t h1]
        rfl
      have hfull : contentFull ((q, cs) :: t) q = cs := by
        unfold contentFull
        rw [List.filter_cons]
        simp only [beq_self_eq_true, if_true]
        rw [filter_key_eq_nil q t h1]
        simp
      rw [hhead, htail, hfull]
      simp
    · have hb : (q == p) = false := by
        simp [BEq.beq]
        exact hq
      have hhead : (cs.take n).filter (fun c => pmidKeyOf c == p) = [] := by
        rw [List.filter_eq_nil_iff]
        intro c hc
        simp only [beq_iff_eq]
        rw [hkh c (List.mem_of_mem_take hc)]
        exact hq
      have hfull : contentFull ((q, cs) :: t) p = contentFull t p := by
        unfold contentFull
        rw [List.filter_cons, hb]
        simp
      rw [hhead, hfull]
      simp

/-- C6 (amended): the per-document cap is correct locally - for every
candidate list, cap K and paper key p, the context-building set
processedChunks keeps exactly the first K candidates of that paper, in
candidate order, so no paper contributes more than K chunks and the
fused-score order is preserved within each paper group. Order across
groups is not preserved in the flattened result (see the counterexample):
groups are emitted contiguously in JS property-enumeration order of their
pmid keys. -/
theorem c6_per_paper_cap (l : List RetrievedChunk) (K : Nat) (p : String) :
    (processedChunks l K).filter (fun c => pmidKeyOf c == p)
      = (l.filter (fun c => pmidKeyOf c == p)).take K ∧
    ((processedChunks l K).filter (fun c => pmidKeyOf c == p)).length ≤ K := by
  have hperm := jsEntriesOrder_perm (chunksByPaper l)
  have hnd := chunksByPaper_nodupKeys l
  have hkey := chunksByPaper_keyed l
  have hnd2 : ((jsEntriesOrder (chunksByPaper l)).map Prod.fst).Nodup :=
    ((hperm.map Prod.fst).nodup_iff).mpr hnd
  have hkey2 : groupsKeyed (jsEntriesOrder (chunksByPaper l)) :=
    groupsKeyed_of_perm hperm.symm hkey
  have hmain : (processedChunks l K).filter (fun c => pmidKeyOf c == p)
      = (l.filter (fun c => pmidKeyOf c == p)).take K := by
    have h1 := flatten_take_filter p K (jsEntriesOrder (chunksByPaper l)) hkey2 hnd2
    have h2 : contentFull (jsEntriesOrder (chunksByPaper l)) p
        = contentFull (chunksByPaper l) p :=
      contentFull_of_perm p hperm hnd2
    have h3 : contentFull (chunksByPaper l) p = contentOf (chunksByPaper l) p :=
      contentFull_eq_contentOf p (chunksByPaper l) hnd
    have h4 := contentOf_chunksByPaper l p
    calc (processedChunks l K).filter (fun c => pmidKeyOf c == p)
        = (contentFull (jsEntriesOrder (chunksByPaper l)) p).take K := h1
      _ = (l.filter (fun c => pmidKeyOf c == p)).take K := by rw [h2, h3, h4]
  refine ⟨hmain, ?_⟩
  rw [hmain]
  exact (List.length_take_le _ _)

/-- C6 (counterexample): cross-group order preservation fails on the code.
The candidates [paperOneHigh, paperTwoMid, paperOneLow] are sorted by
fused score descending (0.9, 0.8, 0.1), yet with cap 2 the flattened
per-paper record is [paperOneHigh, paperOneLow, paperTwoMid]
(0.9, 0.1, 0.8): the 0.1-scored chunk of paper 1 is emitted before the
0.8-scored chunk of paper 2, so the flattened result is not in
fused-score order. -/
theorem c6_counterexample :
    List.Pairwise (fun x y : RetrievedChunk => y.similarity ≤ x.similarity)
      [paperOneHigh, paperTwoMid, paperOneLow] ∧
    processedChunks [paperOneHigh, paperTwoMid, paperOneLow] 2
      = [paperOneHigh, paperOneLow, paperTwoMid] ∧
    ¬ List.Pairwise (fun x y : RetrievedChunk => y.similarity ≤ x.similarity)
      [paperOneHigh, paperOneLow, paperTwoMid] := by
  refine ⟨?_, by with_unfolding_all rfl, ?_⟩
  · with_unfolding_all decide
  · with_unfolding_all decide

/-- The sources builder preserves length. -/
theorem buildSourcesFrom_length :
    ∀ (l : List RetrievedChunk) (i : Nat), (buildSourcesFrom i l).length = l.length := by
  intro l
  induction l with
  | nil => intro i; rfl
  | cons c t ih => intro i; simp [buildSourcesFrom, ih]

/-- Shape of the j-th stored source: the j-th selected chunk under the
1-based index i + j + 1. -/
theorem buildSourcesFrom_get :
    ∀ (l : List RetrievedChunk) (i j : Nat) (hj : j < l.length)
      (hj2 : j < (buildSourcesFrom i l).length),
      (buildSourcesFrom i l).get ⟨j, hj2⟩
        = { index := i + j + 1, content := (l.get ⟨j, hj⟩).content,
            similarity := (l.get ⟨j, hj⟩).similarity,
            metadata := (l.get ⟨j, hj⟩).metadataRaw } := by
  intro l
  induction l with
  | nil => intro i j hj _; exact absurd hj (Nat.not_lt_zero j)
  | cons c t ih =>
    intro i j hj hj2
    cases j with
    | zero => simp [buildSourcesFrom]
    | succ j =>
      have hj' : j < t.length := Nat.lt_of_succ_lt_succ hj
      have hj2' : j < (buildSourcesFrom (i + 1) t).length := by
        rw [buildSourcesFrom_length]; exact hj'
      have := ih (i + 1) j hj' hj2'
      simp only [buildSourcesFrom, List.get_cons_succ, this]
      congr 1
      omega

/-- Every stored allMatchingChunks entry comes from a display row, shares
its content, and carries the membership-based usedInContext flag. -/
theorem buildAllMatchingFrom_mem (sim : List RetrievedChunk) (cited : List Nat) :
    ∀ (l : List MatchingChunk) (i : Nat) (entry : DisplayChunk),
      entry ∈ buildAllMatchingFrom sim cited i l →
      ∃ c ∈ l, entry.content = c.content ∧ entry.usedInContext = usedInContextFlag sim c := by
  intro l
  induction l with
  | nil => intro i entry h; simp [buildAllMatchingFrom] at h
  | cons c t ih =>
    intro i entry h
    rcases List.mem_cons.mp h with h1 | h2
    · exact ⟨c, List.mem_cons_self _ _, by rw [h1], by rw [h1]⟩
    · obtain ⟨c', hc', h3, h4⟩ := ih (i + 1) entry h2
      exact ⟨c', List.mem_cons_of_mem _ hc', h3, h4⟩

/-- C5 (amended): usedInContext records membership, by content equality,
in the retrieval selection - not in the prompt actually sent. The half of
the round-trip that holds: every stored allMatchingChunks entry with
usedInContext = true has the content of some entry of the stored sources
list, whose stored citation index is its 1-based position in that list.
The other half fails (see the counterexample): a chunk dropped from the
prompt by the per-document cap or the context token ceiling can still
carry usedInContext = true. -/
theorem c5_sources_roundtrip (sim : List RetrievedChunk) (matching : List MatchingChunk)
    (cited : List Nat) (entry : DisplayChunk)
    (hmem : entry ∈ buildAllMatching matching sim cited)
    (hused : entry.usedInContext = true) :
    ∃ j : Fin (buildSources sim).length,
      ((buildSources sim).get j).content = entry.content ∧
      ((buildSources sim).get j).index = (j : Nat) + 1 := by
  obtain ⟨c, _hc, hcontent, hflag⟩ := buildAllMatchingFrom_mem sim cited matching 0 entry hmem
  rw [hflag] at hused
  rw [usedInContextFlag, List.any_eq_true] at hused
  obtain ⟨emb, hemb, heq⟩ := hused
  obtain ⟨n, hn⟩ := List.mem_iff_get.mp hemb
  have hlen2 : (n : Nat) < (buildSourcesFrom 0 sim).length := by
    rw [buildSourcesFrom_length]
    exact n.isLt
  have hget := buildSourcesFrom_get sim 0 (n : Nat) n.isLt hlen2
  refine ⟨⟨(n : Nat), hlen2⟩, ?_, ?_⟩
  · show ((buildSourcesFrom 0 sim).get ⟨(n : Nat), hlen2⟩).content = entry.content
    rw [hget]
    have h5 : sim.get ⟨(n : Nat), n.isLt⟩ = emb := hn
    simp only [h5, hcontent]
    exact (beq_iff_eq.mp heq)
  · show ((buildSourcesFrom 0 sim).get ⟨(n : Nat), hlen2⟩).index = (n : Nat) + 1
    rw [hget]
    simp

/-- C5 (witness): the amended theorem at the concrete stored entry for the
display row whose content matches the second retrieval chunk. -/
theorem c5_sources_roundtrip_witness :
    dispBetaEntry ∈ buildAllMatching [dispBeta] [chunkAlpha, chunkBeta] [] ∧
    ∃ j : Fin (buildSources [chunkAlpha, chunkBeta]).length,
      ((buildSources [chunkAlpha, chunkBeta]).get j).content = dispBetaEntry.content ∧
      ((buildSources [chunkAlpha, chunkBeta]).get j).index = (j : Nat) + 1 := by
  have hmem : dispBetaEntry ∈ buildAllMatching [dispBeta] [chunkAlpha, chunkBeta] [] := by
    with_unfolding_all decide
  exact ⟨hmem, c5_sources_roundtrip [chunkAlpha, chunkBeta] [dispBeta] [] dispBetaEntry hmem rfl⟩

/-- C5 (counterexample): the never-sent-implies-unused half of the claim
fails on the code. With the per-document cap 1 the prompt context contains
only the chunk "alpha", yet the display row with content "beta" - whose
chunk was dropped from the prompt by the cap - is stored with
usedInContext = true, because the flag tests membership in the retrieval
selection, not in the prompt. -/
theorem c5_counterexample :
    usedInContextFlag [chunkAlpha, chunkBeta] dispBeta = true ∧
    (buildAllMatching [dispBeta] [chunkAlpha, chunkBeta] []).map DisplayChunk.usedInContext
      = [true] ∧
    (contextChunks [chunkAlpha, chunkBeta] 1 5000).map RetrievedChunk.content = ["alpha"] ∧
    ¬ dispBeta.content ∈ (contextChunks [chunkAlpha, chunkBeta] 1 5000).map RetrievedChunk.content := by
  refine ⟨by rfl, by rfl, ?_, ?_⟩
  · with_unfolding_all rfl
  · with_unfolding_all decide

/-- C7: the fused score follows the source's weight edge cases, read as
the if/else-if/else chain of the code and the spec: with vectorWeight 0
the score is the normalized lexical score; with textWeight 0 (and a
nonzero vectorWeight, the preceding branch) it is the pure vector
similarity; otherwise it is the weighted sum. In particular the weight
pairs (1, 0), (0, 1) and (0.7, 0.3) give v, l and 0.7v + 0.3l. Inputs are
presented through the row values the SQL sees: cosine distance 1 - v and
raw lexical score 10l (so the normalization min(raw/10, 1) returns l). -/
theorem c7_fused_score (wv wl v l : ℚ) (_hv0 : 0 ≤ v) (_hv1 : v ≤ 1)
    (_hl0 : 0 ≤ l) (hl1 : l ≤ 1) :
    similarityCalc 0 wl (1 - v) (10 * l) = l ∧
    (wv ≠ 0 → similarityCalc wv 0 (1 - v) (10 * l) = v) ∧
    (wv ≠ 0 → wl ≠ 0 → similarityCalc wv wl (1 - v) (10 * l) = wv * v + wl * l) ∧
    similarityCalc 1 0 (1 - v) (10 * l) = v ∧
    similarityCalc 0 1 (1 - v) (10 * l) = l ∧
    similarityCalc (7/10) (3/10) (1 - v) (10 * l) = (7/10) * v + (3/10) * l := by
  have hbm : bm25Normalize (10 * l) = l := by
    unfold bm25Normalize
    rw [show (10 : ℚ) * l / 10 = l by ring]
    exact min_eq_left hl1
  have hvs : vectorSim (1 - v) = v := by
    unfold vectorSim
    ring
  refine ⟨?_, ?_, ?_, ?_, ?_, ?_⟩
  · simp [similarityCalc, hbm]
  · intro hwv
    simp [similarityCalc, hwv, hvs]
  · intro hwv hwl
    simp [similarityCalc, hwv, hwl, hvs, hbm]
  · norm_num [similarityCalc, hvs]
  · simp [similarityCalc, hbm]
  · have h7 : (7/10 : ℚ) ≠ 0 := by norm_num
    have h3 : (3/10 : ℚ) ≠ 0 := by norm_num
    simp [similarityCalc, h7, h3, hvs, hbm]

/-- C7 (witness): the edge-case equalities at v = 2/5, l = 1/2 with
weights 0.7 and 0.3. -/
theorem c7_fused_score_witness :
    similarityCalc 0 (3/10) (1 - (2/5 : ℚ)) (10 * (1/2 : ℚ)) = 1/2 ∧
    similarityCalc (7/10) 0 (1 - (2/5 : ℚ)) (10 * (1/2 : ℚ)) = 2/5 ∧
    similarityCalc (7/10) (3/10) (1 - (2/5 : ℚ)) (10 * (1/2 : ℚ))
      = (7/10) * (2/5 : ℚ) + (3/10) * (1/2 : ℚ) := by
  have h := c7_fused_score (7/10) (3/10) (2/5) (1/2)
    (by norm_num) (by norm_num) (by norm_num) (by norm_num)
  exact ⟨h.1, h.2.1 (by norm_num), h.2.2.2.2.2⟩

/-- C8 (amended): the sanitized knobs equal the raw values clamped into
the fixed ranges exactly when the raw field parses to a nonzero number;
a missing, non-numeric or zero raw value instead falls back to the
default (3 chunks, 1500 tokens, 0.3 threshold, 0.7 and 0.3 weights)
before clamping, because the sanitizer computes parse(x) || default and
0 is falsy in JS. -/
theorem c8_clamping (input : RawInput) (n₁ n₂ : Int) (q₁ q₂ q₃ : ℚ)
    (hn₁ : n₁ ≠ 0) (hn₂ : n₂ ≠ 0) (hq₁ : q₁ ≠ 0) (hq₂ : q₂ ≠ 0) (hq₃ : q₃ ≠ 0) :
    (jsParseInt input.maxChunksPerPaper = some n₁ →
      (validateAndSanitizeInput input).sanitized.maxChunksPerPaper = clampInt 1 10 n₁) ∧
    (jsParseInt input.targetTokens = some n₂ →
      (validateAndSanitizeInput input).sanitized.targetTokens = clampInt 100 10000 n₂) ∧
    (jsParseFloat input.similarityThreshold = some q₁ →
      (validateAndSanitizeInput input).sanitized.similarityThreshold = clampQ (1/10) 1 q₁) ∧
    (jsParseFloat input.vectorWeight = some q₂ →
      (validateAndSanitizeInput input).sanitized.vectorWeight = clampQ 0 1 q₂) ∧
    (jsParseFloat input.textWeight = some q₃ →
      (validateAndSanitizeInput input).sanitized.textWeight = clampQ 0 1 q₃) := by
  refine ⟨?_, ?_, ?_, ?_, ?_⟩
  · intro h
    simp [validateAndSanitizeInput, sanitizeInput, h, jsOrInt, hn₁]
  · intro h
    simp [validateAndSanitizeInput, sanitizeInput, h, jsOrInt, hn₂]
  · intro h
    simp [validateAndSanitizeInput, sanitizeInput, h, jsOrQ, hq₁]
  · intro h
    simp [validateAndSanitizeInput, sanitizeInput, h, jsOrQ, hq₂]
  · intro h
    simp [validateAndSanitizeInput, sanitizeInput, h, jsOrQ, hq₃]

/-- C8 (witness): the amended theorem at a request with out-of-range
nonzero knobs - 20 chunks clamps to 10, 500 tokens stays 500, threshold 2
clamps to 1, and the 0.5 weights stay 0.5. -/
theorem c8_clamping_witness :
    (validateAndSanitizeInput rawTypical).sanitized.maxChunksPerPaper = 10 ∧
    (validateAndSanitizeInput rawTypical).sanitized.targetTokens = 500 ∧
    (validateAndSanitizeInput rawTypical).sanitized.similarityThreshold = 1 ∧
    (validateAndSanitizeInput rawTypical).sanitized.vectorWeight = 1/2 := by
  have h := c8_clamping rawTypical 20 500 2 (1/2) (1/2)
    (by norm_num) (by norm_num) (by norm_num) (by norm_num) (by norm_num)
  refine ⟨?_, ?_, ?_, ?_⟩
  · rw [h.1 (by with_unfolding_all decide)]
    decide
  · rw [h.2.1 (by with_unfolding_all decide)]
    decide
  · rw [h.2.2.1 rfl]
    unfold clampQ
    norm_num
  · rw [h.2.2.2.1 rfl]
    unfold clampQ
    norm_num

/-- C8 (counterexample): the claim fails on a raw value of 0. A request
supplying maxChunksPerPaper = 0 passes validation, and the sanitizer
produces 3 (the default, because 0 is falsy in parse(x) || 3), while the
claimed clamp of the raw value 0 into [1, 10] is 1. -/
theorem c8_counterexample :
    (validateAndSanitizeInput rawZeroChunks).isValid = true ∧
    (validateAndSanitizeInput rawZeroChunks).sanitized.maxChunksPerPaper = 3 ∧
    jsParseInt rawZeroChunks.maxChunksPerPaper = some 0 ∧
    clampInt 1 10 0 = 1 ∧
    (3 : Int) ≠ 1 := by
  refine ⟨by with_unfolding_all decide, ?_, by with_unfolding_all decide, by decide, by decide⟩
  with_unfolding_all decide

/-- C9: verification errors never fail the job. When verification is
enabled and the verification call raises (including the timeout abort),
returns non-success, or returns a reply in which neither marker parses,
the worker still stores a completed job carrying the original unverified
answer and the neutral confidence 50, and the status read reports it as
completed with confidence 50 and verified = true (the stored
enableVerification parameter). -/
theorem c9_verification_degrades (now pollTime : Int) (job : QueryJob)
    (sim : List RetrievedChunk) (matching : List MatchingChunk) (resp : String)
    (o : FetchOutcome) (cited : List Nat)
    (hsim : sim ≠ []) (hdeg : verificationDegraded o)
    (hver : job.params.enableVerification = true)
    (hpoll : ¬ pollTime > job.expiresAt) :
    (backgroundComplete now job sim matching resp true o cited).status = JobStatus.completed ∧
    (backgroundComplete now job sim matching resp true o cited).response = some resp ∧
    (backgroundComplete now job sim matching resp true o cited).confidence = some "50" ∧
    statusRead pollTime (backgroundComplete now job sim matching resp true o cited)
      = StatusView.completedView (some resp) (some 50) true := by
  have hvr : verifyResponse resp o = (resp, 50) := by
    rcases hdeg with h | h | ⟨b, hb, hv, hc⟩
    · rw [h]
      rfl
    · rw [h]
      rfl
    · rw [hb]
      simp [verifyResponse, hv, hc]
  have hne : sim.isEmpty = false := by
    cases sim with
    | nil => exact absurd rfl hsim
    | cons a t => rfl
  have hb : backgroundComplete now job sim matching resp true o cited
      = storeJobResults now job
          { response := resp, sources := buildSources sim,
            allMatchingChunks := some (buildAllMatching matching sim cited),
            confidence := some 50, verified := some true } := by
    simp [backgroundComplete, hne, hvr]
  rw [hb]
  refine ⟨rfl, rfl, rfl, ?_⟩
  have hexp : (storeJobResults now job
      { response := resp, sources := buildSources sim,
        allMatchingChunks := some (buildAllMatching matching sim cited),
        confidence := some 50, verified := some true }).expiresAt = job.expiresAt := rfl
  unfold statusRead
  rw [hexp]
  rw [if_neg hpoll]
  have hpf : parseFloatSimple "50" = some 50 := by
    with_unfolding_all decide
  have ht : (toString (50 : Nat)) = "50" := rfl
  simp [storeJobResults, ht, hpf, hver]

/-- C9 (witness): the degradation theorem at a concrete verification-
enabled job whose verification call raises. -/
theorem c9_verification_degrades_witness :
    (backgroundComplete 100 (createQueryJob 0 verifParams) [verifChunk] []
        "the draft answer" true FetchOutcome.failure []).status = JobStatus.completed ∧
    (backgroundComplete 100 (createQueryJob 0 verifParams) [verifChunk] []
        "the draft answer" true FetchOutcome.failure []).confidence = some "50" ∧
    statusRead 200 (backgroundComplete 100 (createQueryJob 0 verifParams) [verifChunk] []
        "the draft answer" true FetchOutcome.failure [])
      = StatusView.completedView (some "the draft answer") (some 50) true := by
  have h := c9_verification_degrades 100 200 (createQueryJob 0 verifParams)
    [verifChunk] [] "the draft answer" FetchOutcome.failure []
    (by simp) (Or.inl rfl) rfl (by decide)
  exact ⟨h.1, h.2.2.1, h.2.2.2⟩

/-- C10 (amended): on the generation path - at least one retrieved chunk -
with verification disabled, both the background worker and the synchronous
endpoint complete with the fixed default confidence 85; but the
empty-retrieval completion stores and returns no confidence at all (see
the counterexample), so a successful job does not always carry one. -/
theorem c10_default_confidence (now : Int) (job : QueryJob) (sim : List RetrievedChunk)
    (matching : List MatchingChunk) (resp : String) (o : FetchOutcome) (cited : List Nat)
    (hsim : sim ≠ []) :
    (backgroundComplete now job sim matching resp false o cited).status = JobStatus.completed ∧
    (backgroundComplete now job sim matching resp false o cited).confidence = some "85" ∧
    (backgroundComplete now job sim matching resp false o cited).response = some resp ∧
    (syncQueryBody sim matching resp false o cited).confidence = some 85 ∧
    (syncQueryBody sim matching resp false o cited).response = resp := by
  have hne : sim.isEmpty = false := by
    cases sim with
    | nil => exact absurd rfl hsim
    | cons a t => rfl
  have hb : backgroundComplete now job sim matching resp false o cited
      = storeJobResults now job
          { response := resp, sources := buildSources sim,
            allMatchingChunks := some (buildAllMatching matching sim cited),
            confidence := some 85, verified := some false } := by
    simp [backgroundComplete, hne]
  have hs : syncQueryBody sim matching resp false o cited
      = { response := resp, confidence := some 85, verified := some false,
          sources := buildSources sim,
          allMatchingChunks := buildAllMatching matching sim cited } := by
    simp [syncQueryBody, hne]
  rw [hb, hs]
  exact ⟨rfl, rfl, rfl, rfl, rfl⟩

/-- C10 (witness): the default-confidence theorem at a concrete
single-chunk retrieval with verification disabled. -/
theorem c10_default_confidence_witness :
    (backgroundComplete 100 (createQueryJob 0 sampleParams) [confChunk] []
        "an answer" false FetchOutcome.nonSuccess []).confidence = some "85" ∧
    (syncQueryBody [confChunk] [] "an answer" false FetchOutcome.nonSuccess []).confidence
      = some 85 := by
  have h := c10_default_confidence 100 (createQueryJob 0 sampleParams)
    [confChunk] [] "an answer" FetchOutcome.nonSuccess [] (by simp)
  exact ⟨h.2.1, h.2.2.2.1⟩

/-- C10 (counterexample): the claim fails on the empty-retrieval
completion path. With no retrieved chunks the worker stores a completed
job whose confidence column is never written (it stays absent), and the
synchronous endpoint's body carries no confidence field either - so a
successfully completed job does not always carry the default 85. -/
theorem c10_counterexample :
    (backgroundComplete 500 (createQueryJob 0 sampleParams) [] [] "draft" false
        FetchOutcome.failure []).status = JobStatus.completed ∧
    (backgroundComplete 500 (createQueryJob 0 sampleParams) [] [] "draft" false
        FetchOutcome.failure []).confidence = none ∧
    (syncQueryBody [] [] "draft" false FetchOutcome.failure []).confidence = none := by
  exact ⟨rfl, rfl, rfl⟩
